import Mathlib

/-!
Verification of the quiz-attempt session state machine of the Telegram quiz
bot (src/bot.py, src/models.py, src/utils/database.py).

Shallow embedding conventions:
* Machine floats (SQLAlchemy `Float` columns: `points`, `passing_score`,
  `score`, `max_score`, `percentage`) are modelled as exact rationals.
* Timestamps (`datetime` values) are modelled as rational seconds; the
  Python expression `int((b - a).total_seconds())` becomes `py_int (b - a)`
  (truncation toward zero, which `int()` performs on floats).
* The Telegram user is identified by a single natural number standing for
  both `User.id` and `User.telegram_id` (the two are in bijection).
* The in-memory dict `TelegramQuizBot.user_sessions` becomes a function
  `Nat → Option Session`; Python dict update/delete become `putSession` /
  `removeSession`.  The `answers` dict inside a session becomes an
  association list updated by `setAnswer` (replace the existing key in
  place, else append, matching dict insertion-order semantics).
* Database rows live in a `Database` record; SQLAlchemy query-by-id calls
  become `List.find?` over the corresponding table, and the autoincrement
  primary key of `quiz_attempts` is modelled with `next_attempt_id`.
* A Python `AttributeError` / `IndexError` crash path (attribute access on
  `None`, out-of-range subscript) is modelled by the operation returning
  `none`; a normal handler run returns `some (state, output)`.
* Fields of the source models that the session state machine never reads
  (titles, descriptions, notification emails, user profile data,
  `randomize_questions`, timestamps of rows other than attempts) are
  omitted from the records.
-/

/-- One row of `question_options` (models.py, class QuestionOption). -/
structure QuestionOption where
  id : Nat
  question_id : Nat
  is_correct : Bool
  order_index : Nat
deriving DecidableEq, Repr

/-- One row of `questions` (models.py, class Question).  `options` is the
ordered relationship `Question.options`. -/
structure Question where
  id : Nat
  quiz_id : Nat
  question_type : String
  order_index : Nat
  points : ℚ
  options : List QuestionOption
deriving DecidableEq, Repr

/-- One row of `quizzes` (models.py, class Quiz), with its ordered
`questions` relationship inlined. -/
structure Quiz where
  id : Nat
  is_active : Bool
  time_limit : Option ℚ
  max_attempts : Int
  passing_score : ℚ
  questions : List Question
deriving DecidableEq, Repr

/-- One row of `quiz_attempts` (models.py, class QuizAttempt). -/
structure QuizAttempt where
  id : Nat
  user_id : Nat
  quiz_id : Nat
  started_at : ℚ
  completed_at : Option ℚ
  score : Option ℚ
  max_score : Option ℚ
  percentage : Option ℚ
  is_passed : Option Bool
  time_taken : Option Int
  status : String
deriving DecidableEq, Repr

/-- The raw value a session stores for one question: an option id captured
from an `answer_&lt;qid&gt;_&lt;oid&gt;` callback, or the free text of a chat
message. -/
inductive RawAnswer where
  | optionId (oid : Nat)
  | text (s : String)
deriving DecidableEq, Repr

/-- One row of `answers` (models.py, class Answer) as created by
`finish_quiz`.  `selected_option_id` keeps the raw session value that the
source writes into the column. -/
structure Answer where
  attempt_id : Nat
  question_id : Nat
  selected_option_id : RawAnswer
  is_correct : Bool
  points_earned : ℚ
deriving DecidableEq, Repr

/-- One entry of `TelegramQuizBot.user_sessions` (bot.py line 293). -/
structure Session where
  attempt_id : Nat
  quiz_id : Nat
  current_question : Nat
  start_time : ℚ
  answers : List (Nat × RawAnswer)
deriving DecidableEq, Repr

/-- The persistent store: the read-only quiz/question/option tables plus
the attempt and answer tables the engine writes. -/
structure Database where
  quizzes : List Quiz
  attempts : List QuizAttempt
  answers : List Answer
  next_attempt_id : Nat
deriving DecidableEq, Repr

/-- The whole bot state: the database plus the in-memory session dict. -/
structure BotState where
  db : Database
  sessions : Nat → Option Session

/-- What a handler invocation produces for the participant (the message it
edits/sends, abstracted to its kind and data). -/
inductive BotOutput where
  | noActiveSession
  | quizUnavailable
  | attemptsExhausted
  | quizInfoShown (quiz_id : Nat)
  | questionShown (question_index : Nat)
  | completedResult (attempt : QuizAttempt)
  | expiredNotice
  | textQuizFinished
  | ignored
deriving DecidableEq, Repr

/-- Python `int()` applied to an exact rational number of seconds:
truncation toward zero. -/
def py_int (x : ℚ) : Int := Int.tdiv x.num (Int.ofNat x.den)

/-- DatabaseManager.get_quiz_by_id (database.py line 91). -/
def get_quiz_by_id (db : Database) (quiz_id : Nat) : Option Quiz :=
  db.quizzes.find? (fun q => q.id == quiz_id)

/-- The `questions` table: every question of every quiz. -/
def allQuestions (db : Database) : List Question :=
  (db.quizzes.map Quiz.questions).flatten

/-- DatabaseManager.get_question_by_id (database.py line 137): global
lookup in the `questions` table. -/
def get_question_by_id (db : Database) (question_id : Nat) : Option Question :=
  (allQuestions db).find? (fun q => q.id == question_id)

/-- DatabaseManager.get_question_option_by_id (database.py line 141):
global lookup in the `question_options` table, not scoped to a question. -/
def get_question_option_by_id (db : Database) (option_id : Nat) : Option QuestionOption :=
  ((allQuestions db).map Question.options).flatten.find? (fun o => o.id == option_id)

/-- DatabaseManager.get_quiz_attempt (database.py line 156). -/
def get_quiz_attempt (db : Database) (attempt_id : Nat) : Option QuizAttempt :=
  db.attempts.find? (fun a => a.id == attempt_id)

/-- DatabaseManager.get_user_quiz_attempts (database.py line 160): count
of this user's attempts for this quiz. -/
def get_user_quiz_attempts (db : Database) (user_id quiz_id : Nat) : Nat :=
  (db.attempts.filter (fun a => a.user_id == user_id && a.quiz_id == quiz_id)).length

/-- The answers persisted for one attempt (the `QuizAttempt.answers`
relationship). -/
def attemptAnswers (db : Database) (attempt_id : Nat) : List Answer :=
  db.answers.filter (fun a => a.attempt_id == attempt_id)

/-- Committing an in-place mutation of the attempt row whose primary key
is `attempt_id`. -/
def updateAttempt (l : List QuizAttempt) (attempt_id : Nat) (a1 : QuizAttempt) :
    List QuizAttempt :=
  l.map (fun a => if a.id = attempt_id then a1 else a)

/-- Committing freshly created answer rows. -/
def addAnswers (db : Database) (nas : List Answer) : Database :=
  { db with answers := db.answers ++ nas }

/-- Dict write `session.answers[question_id] = raw` (overwrite in place if
the key exists, else append, as a Python dict does). -/
def setAnswer (l : List (Nat × RawAnswer)) (question_id : Nat) (raw : RawAnswer) :
    List (Nat × RawAnswer) :=
  if l.any (fun p => p.1 == question_id) then
    l.map (fun p => if p.1 = question_id then (question_id, raw) else p)
  else l ++ [(question_id, raw)]

/-- Dict write `user_sessions[user] = sess`. -/
def putSession (s : Nat → Option Session) (user : Nat) (sess : Session) :
    Nat → Option Session :=
  fun v => if v = user then some sess else s v

/-- Dict delete `del user_sessions[user]`. -/
def removeSession (s : Nat → Option Session) (user : Nat) : Nat → Option Session :=
  fun v => if v = user then none else s v

/-- Resolution of a stored raw answer to an option row, as `finish_quiz`
does via `get_question_option_by_id`: an option id is looked up globally
by primary key; free text never matches an integer primary key. -/
def resolveOption (db : Database) : RawAnswer → Option QuestionOption
  | .optionId oid => get_question_option_by_id db oid
  | .text _ => none

/-- Creation of one `Answer` row in `finish_quiz` (bot.py lines 417-429):
`is_correct = option.is_correct if option else False` and
`points_earned = question.points if (option and option.is_correct) else 0`.
`question.points` is only evaluated when the option resolved and is
correct; if the question row is missing there the source raises
(`none`). -/
def gradeAnswer (db : Database) (attempt_id question_id : Nat) (raw : RawAnswer) :
    Option Answer :=
  let opt := resolveOption db raw
  let corr := match opt with
    | some o => o.is_correct
    | none => false
  if corr then
    match get_question_by_id db question_id with
    | some q => some { attempt_id := attempt_id, question_id := question_id,
                       selected_option_id := raw, is_correct := true,
                       points_earned := q.points }
    | none => none
  else
    some { attempt_id := attempt_id, question_id := question_id,
           selected_option_id := raw, is_correct := false, points_earned := 0 }

/-- The persistence loop of `finish_quiz` over `session['answers'].items()`
in insertion order.  (On the source's crash path earlier rows were already
committed row by row; no claim concerns the state after a crash, so the
whole loop collapses to `none` there.) -/
def gradeAnswers (db : Database) (attempt_id : Nat) :
    List (Nat × RawAnswer) → Option (List Answer)
  | [] => some []
  | (qid, raw) :: rest => do
    let a ← gradeAnswer db attempt_id qid raw
    let others ← gradeAnswers db attempt_id rest
    pure (a :: others)

/-- The accumulation loop of `QuizAttempt.calculate_score` (models.py
lines 197-200): for every persisted answer, `total += answer.question.points`
and, if `answer.is_correct`, `earned += answer.question.points`.  Missing
question row means an attribute error (`none`). -/
def scoreTotals (db : Database) : List Answer → Option (ℚ × ℚ)
  | [] => some (0, 0)
  | a :: rest => do
    let q ← get_question_by_id db a.question_id
    let (total, earned) ← scoreTotals db rest
    pure (q.points + total, (if a.is_correct then q.points else 0) + earned)

/-- `percentage = (earned/total*100) if total_points > 0 else 0`
(models.py line 204). -/
def pctOf (earned total : ℚ) : ℚ :=
  if 0 < total then earned / total * 100 else 0

/-- `attempt.completed_at = now; attempt.time_taken = int(...);
attempt.status = 'completed'` (bot.py lines 432-434). -/
def finAttempt (a : QuizAttempt) (now : ℚ) : QuizAttempt :=
  { a with completed_at := some now,
           time_taken := some (py_int (now - a.started_at)),
           status := "completed" }

/-- The field writes of `calculate_score` (models.py lines 202-205). -/
def scoredAttempt (a : QuizAttempt) (total earned passing : ℚ) : QuizAttempt :=
  { a with score := some earned, max_score := some total,
           percentage := some (pctOf earned total),
           is_passed := some (decide (pctOf earned total ≥ passing)) }

/-- QuizAttempt.calculate_score (models.py lines 192-207): folds over the
attempt's persisted answers and writes `score`, `max_score`, `percentage`,
`is_passed` (using `self.quiz.passing_score`). -/
def calculate_score (db : Database) (a : QuizAttempt) : Option QuizAttempt := do
  let (total, earned) ← scoreTotals db (attemptAnswers db a.id)
  let quiz ← get_quiz_by_id db a.quiz_id
  pure (scoredAttempt a total earned quiz.passing_score)

/-- TelegramQuizBot.finish_quiz (bot.py lines 406-484): persist every
session answer, stamp completion fields, compute the score, commit, and
delete the session. -/
def finish_quiz (st : BotState) (user : Nat) (now : ℚ) :
    Option (BotState × BotOutput) :=
  match st.sessions user with
  | none => some (st, .noActiveSession)
  | some sess =>
    match get_quiz_attempt st.db sess.attempt_id, get_quiz_by_id st.db sess.quiz_id with
    | some attempt, some _quiz =>
      match gradeAnswers st.db sess.attempt_id sess.answers with
      | none => none
      | some nas =>
        let db1 := addAnswers st.db nas
        match calculate_score db1 (finAttempt attempt now) with
        | none => none
        | some a2 =>
          some ({ db := { db1 with attempts := updateAttempt db1.attempts sess.attempt_id a2 },
                  sessions := removeSession st.sessions user },
                .completedResult a2)
    | _, _ => none

/-- TelegramQuizBot.timeout_quiz (bot.py lines 486-502): set only
`status = 'expired'` and `completed_at`, commit, and delete the session.
No answers are persisted and no score fields are written. -/
def timeout_quiz (st : BotState) (user : Nat) (now : ℚ) :
    Option (BotState × BotOutput) :=
  match st.sessions user with
  | none => some (st, .ignored)
  | some sess =>
    match get_quiz_attempt st.db sess.attempt_id with
    | none => none
    | some attempt =>
      let a1 := { attempt with status := "expired", completed_at := some now }
      some ({ db := { st.db with attempts := updateAttempt st.db.attempts sess.attempt_id a1 },
              sessions := removeSession st.sessions user },
            .expiredNotice)

/-- TelegramQuizBot.show_question (bot.py lines 312-386): finish when the
index ran past the end, otherwise record the index in the session and only
then check the time limit. -/
def show_question (st : BotState) (user : Nat) (question_index : Nat) (now : ℚ) :
    Option (BotState × BotOutput) :=
  match st.sessions user with
  | none => some (st, .noActiveSession)
  | some sess =>
    match get_quiz_by_id st.db sess.quiz_id with
    | none => none
    | some quiz =>
      if quiz.questions.length ≤ question_index then
        finish_quiz st user now
      else
        let st1 : BotState :=
          { st with sessions :=
              putSession st.sessions user { sess with current_question := question_index } }
        match quiz.time_limit with
        | some limit =>
          if limit < now - sess.start_time then timeout_quiz st1 user now
          else some (st1, .questionShown question_index)
        | none => some (st1, .questionShown question_index)

/-- TelegramQuizBot.handle_quiz_answer (bot.py lines 388-404): store the
submitted option under the submitted question id (no check against the
current question, no time check), then advance to the next index. -/
def handle_quiz_answer (st : BotState) (user question_id option_id : Nat) (now : ℚ) :
    Option (BotState × BotOutput) :=
  match st.sessions user with
  | none => some (st, .noActiveSession)
  | some sess =>
    let sess1 := { sess with answers := setAnswer sess.answers question_id (.optionId option_id) }
    let st1 : BotState := { st with sessions := putSession st.sessions user sess1 }
    show_question st1 user (sess.current_question + 1) now

/-- The fresh `QuizAttempt` row created by `start_quiz`
(bot.py lines 283-290). -/
def newAttempt (db : Database) (user quiz_id : Nat) (now : ℚ) : QuizAttempt :=
  { id := db.next_attempt_id, user_id := user, quiz_id := quiz_id,
    started_at := now, completed_at := none, score := none, max_score := none,
    percentage := none, is_passed := none, time_taken := none,
    status := "in_progress" }

/-- TelegramQuizBot.start_quiz (bot.py lines 274-310): after checking only
that the quiz exists and is active (no attempts-quota check), create the
attempt row, overwrite the user's session entry, and show question 0. -/
def start_quiz (st : BotState) (user quiz_id : Nat) (now : ℚ) :
    Option (BotState × BotOutput) :=
  match get_quiz_by_id st.db quiz_id with
  | none => some (st, .quizUnavailable)
  | some quiz =>
    if quiz.is_active then
      let attempt := newAttempt st.db user quiz.id now
      let db1 : Database :=
        { st.db with
            attempts := st.db.attempts ++ [attempt]
            next_attempt_id := st.db.next_attempt_id + 1 }
      let sess : Session :=
        { attempt_id := attempt.id
          quiz_id := quiz.id
          current_question := 0
          start_time := now
          answers := [] }
      show_question { db := db1, sessions := putSession st.sessions user sess } user 0 now
    else some (st, .quizUnavailable)

/-- TelegramQuizBot.show_quiz_info (bot.py lines 232-272): the only place
the attempts quota is checked (`attempts_left = max_attempts - count;
if attempts_left <= 0: refuse`).  Pure read, never mutates state. -/
def show_quiz_info (st : BotState) (user quiz_id : Nat) : BotState × BotOutput :=
  match get_quiz_by_id st.db quiz_id with
  | none => (st, .quizUnavailable)
  | some quiz =>
    if quiz.is_active then
      if quiz.max_attempts - (get_user_quiz_attempts st.db user quiz.id : Int) ≤ 0 then
        (st, .attemptsExhausted)
      else (st, .quizInfoShown quiz.id)
    else (st, .quizUnavailable)

/-- TelegramQuizBot.show_question_text (bot.py lines 579-597): record the
new index in the session and send the question text.  No database
effect. -/
def show_question_text (st : BotState) (user : Nat) (question_index : Nat) :
    Option (BotState × BotOutput) :=
  match st.sessions user with
  | none => none
  | some sess =>
    match get_quiz_by_id st.db sess.quiz_id with
    | none => none
    | some quiz =>
      match quiz.questions[question_index]? with
      | none => none
      | some _q =>
        some ({ st with sessions :=
                  putSession st.sessions user { sess with current_question := question_index } },
              .questionShown question_index)

/-- TelegramQuizBot.finish_quiz_text (bot.py lines 599-608): a stub that
only sends a message; it persists nothing, touches no attempt fields, and
does not remove the session. -/
def finish_quiz_text (st : BotState) (_user : Nat) : Option (BotState × BotOutput) :=
  some (st, .textQuizFinished)

/-- TelegramQuizBot.handle_text_message (bot.py lines 551-577): when the
current question is of type text or boolean, record the message text under
the current question's id and either show the next question or run the
`finish_quiz_text` stub. -/
def handle_text_message (st : BotState) (user : Nat) (text : String) (_now : ℚ) :
    Option (BotState × BotOutput) :=
  match st.sessions user with
  | none => some (st, .ignored)
  | some sess =>
    match get_quiz_by_id st.db sess.quiz_id with
    | none => none
    | some quiz =>
      match quiz.questions[sess.current_question]? with
      | none => none
      | some current =>
        if current.question_type = "text" ∨ current.question_type = "boolean" then
          let sess1 := { sess with answers := setAnswer sess.answers current.id (.text text) }
          let st1 : BotState := { st with sessions := putSession st.sessions user sess1 }
          if sess.current_question + 1 < quiz.questions.length then
            show_question_text st1 user (sess.current_question + 1)
          else
            finish_quiz_text st1 user
        else some (st, .ignored)

/-- One inbound chat event, as dispatched by `handle_callback_query` and
the message handler. -/
inductive BotEvent where
  | quizInfo (user quiz_id : Nat)
  | startQuiz (user quiz_id : Nat) (now : ℚ)
  | answerCallback (user question_id option_id : Nat) (now : ℚ)
  | textMessage (user : Nat) (text : String) (now : ℚ)
deriving DecidableEq, Repr

/-- The engine as a step function over inbound events. -/
def step (st : BotState) : BotEvent → Option (BotState × BotOutput)
  | .quizInfo u qid => some (show_quiz_info st u qid)
  | .startQuiz u qid now => start_quiz st u qid now
  | .answerCallback u qid oid now => handle_quiz_answer st u qid oid now
  | .textMessage u txt now => handle_text_message st u txt now

/-! ## Concrete fixtures

Small database states used to evaluate the engine on concrete inputs. -/

/-- A session store holding exactly one session, for user `u`. -/
def oneSession (u : Nat) (s : Session) : Nat → Option Session :=
  fun v => if v = u then some s else none

/-- The empty session store. -/
def noSessions : Nat → Option Session := fun _ => none

/-- Two-question multiple-choice quiz, one point each, passing score 50,
no time limit.  Question 1 (id 1): options 1 (correct) and 2.  Question 2
(id 2): options 3 and 4 (correct). -/
def mcqQuiz : Quiz :=
  { id := 1, is_active := true, time_limit := none, max_attempts := 3
    passing_score := 50
    questions :=
      [ { id := 1, quiz_id := 1, question_type := "multiple_choice", order_index := 0
          points := 1
          options :=
            [ { id := 1, question_id := 1, is_correct := true, order_index := 0 }
            , { id := 2, question_id := 1, is_correct := false, order_index := 1 } ] }
      , { id := 2, quiz_id := 1, question_type := "multiple_choice", order_index := 1
          points := 1
          options :=
            [ { id := 3, question_id := 2, is_correct := false, order_index := 0 }
            , { id := 4, question_id := 2, is_correct := true, order_index := 1 } ] } ] }

/-- An in-progress attempt with primary key 1 for user 7 on the given
quiz, started at time 0. -/
def inProgressAttempt (quiz_id : Nat) : QuizAttempt :=
  { id := 1, user_id := 7, quiz_id := quiz_id, started_at := 0
    completed_at := none, score := none, max_score := none, percentage := none
    is_passed := none, time_taken := none, status := "in_progress" }

/-- Database holding `mcqQuiz` and one in-progress attempt on it. -/
def mcqDb : Database :=
  { quizzes := [mcqQuiz], attempts := [inProgressAttempt 1], answers := []
    next_attempt_id := 2 }

/-- User 7 mid-attempt on `mcqQuiz` at question index `cur` with the given
answers, started at time 0. -/
def mcqState (cur : Nat) (answers : List (Nat × RawAnswer)) : BotState :=
  { db := mcqDb
    sessions := oneSession 7
      { attempt_id := 1, quiz_id := 1, current_question := cur
        start_time := 0, answers := answers } }

/-- Two-question timed quiz (id 2, time limit 60 s): question 11 with
correct option 21, question 12 with correct option 22. -/
def timedQuiz : Quiz :=
  { id := 2, is_active := true, time_limit := some 60, max_attempts := 3
    passing_score := 0
    questions :=
      [ { id := 11, quiz_id := 2, question_type := "multiple_choice", order_index := 0
          points := 1
          options := [ { id := 21, question_id := 11, is_correct := true, order_index := 0 } ] }
      , { id := 12, quiz_id := 2, question_type := "multiple_choice", order_index := 1
          points := 1
          options := [ { id := 22, question_id := 12, is_correct := true, order_index := 0 } ] } ] }

/-- User 7 at question index 0 of `timedQuiz`, session started at time 0,
no answers yet. -/
def timedState : BotState :=
  { db := { quizzes := [timedQuiz], attempts := [inProgressAttempt 2], answers := []
            next_attempt_id := 2 }
    sessions := oneSession 7
      { attempt_id := 1, quiz_id := 2, current_question := 0, start_time := 0
        answers := [] } }

/-- One-question timed quiz (id 3, time limit 60 s): question 13 with
correct option 23. -/
def timedOneQuiz : Quiz :=
  { id := 3, is_active := true, time_limit := some 60, max_attempts := 3
    passing_score := 0
    questions :=
      [ { id := 13, quiz_id := 3, question_type := "multiple_choice", order_index := 0
          points := 1
          options := [ { id := 23, question_id := 13, is_correct := true, order_index := 0 } ] } ] }

/-- User 7 at the only question of `timedOneQuiz`, session started at
time 0. -/
def timedOneState : BotState :=
  { db := { quizzes := [timedOneQuiz], attempts := [inProgressAttempt 3], answers := []
            next_attempt_id := 2 }
    sessions := oneSession 7
      { attempt_id := 1, quiz_id := 3, current_question := 0, start_time := 0
        answers := [] } }

/-- One-question quiz (id 4) allowing a single attempt. -/
def maxedQuiz : Quiz :=
  { id := 4, is_active := true, time_limit := none, max_attempts := 1
    passing_score := 0
    questions :=
      [ { id := 14, quiz_id := 4, question_type := "multiple_choice", order_index := 0
          points := 1
          options := [ { id := 24, question_id := 14, is_correct := true, order_index := 0 } ] } ] }

/-- User 7 already has one (completed) attempt on `maxedQuiz` and no live
session. -/
def maxedState : BotState :=
  { db :=
      { quizzes := [maxedQuiz]
        attempts :=
          [ { id := 1, user_id := 7, quiz_id := 4, started_at := 0
              completed_at := some 10, score := some 1, max_score := some 1
              percentage := some 100, is_passed := some true, time_taken := some 10
              status := "completed" } ]
        answers := []
        next_attempt_id := 2 }
    sessions := noSessions }

/-- Quiz (id 5) mixing a multiple-choice question 15 (correct option 25)
with a text question 16 worth 5 points that has no options. -/
def mixedQuiz : Quiz :=
  { id := 5, is_active := true, time_limit := none, max_attempts := 3
    passing_score := 0
    questions :=
      [ { id := 15, quiz_id := 5, question_type := "multiple_choice", order_index := 0
          points := 1
          options := [ { id := 25, question_id := 15, is_correct := true, order_index := 0 } ] }
      , { id := 16, quiz_id := 5, question_type := "text", order_index := 1
          points := 5, options := [] } ] }

/-- Database holding `mixedQuiz` and one in-progress attempt on it. -/
def mixedDb : Database :=
  { quizzes := [mixedQuiz], attempts := [inProgressAttempt 5], answers := []
    next_attempt_id := 2 }

/-- User 7 with a session on `mixedQuiz` whose stored answer keys the
optionless text question 16 to option id 25 (an option of question 15). -/
def mixedState : BotState :=
  { db := mixedDb
    sessions := oneSession 7
      { attempt_id := 1, quiz_id := 5, current_question := 2, start_time := 0
        answers := [(16, .optionId 25)] } }

/-- Quiz (id 6) whose last question (id 18) is a text question. -/
def textualQuiz : Quiz :=
  { id := 6, is_active := true, time_limit := none, max_attempts := 3
    passing_score := 0
    questions :=
      [ { id := 17, quiz_id := 6, question_type := "multiple_choice", order_index := 0
          points := 1
          options := [ { id := 27, question_id := 17, is_correct := true, order_index := 0 } ] }
      , { id := 18, quiz_id := 6, question_type := "text", order_index := 1
          points := 2, options := [] } ] }

/-- User 7 sitting on the final (text) question of `textualQuiz`. -/
def textualState : BotState :=
  { db := { quizzes := [textualQuiz], attempts := [inProgressAttempt 6], answers := []
            next_attempt_id := 2 }
    sessions := oneSession 7
      { attempt_id := 1, quiz_id := 6, current_question := 1, start_time := 0
        answers := [(17, .optionId 27)] } }

/-- Modelled from the spec's words for comparison (spec section 4.2,
finalize): the sum of `points` over every question in the quiz, including
unanswered ones. -/
def quizMaxScore (quiz : Quiz) : ℚ :=
  (quiz.questions.map Question.points).sum

/-- Sum of `points_earned` over the answers persisted for an attempt. -/
def sumPointsEarned (db : Database) (attempt_id : Nat) : ℚ :=
  ((attemptAnswers db attempt_id).map Answer.points_earned).sum

/-- Sum of the questions' `points` over the answers persisted for an
attempt (0 for a dangling question id). -/
def answeredQuestionsPoints (db : Database) (attempt_id : Nat) : ℚ :=
  ((attemptAnswers db attempt_id).map
    (fun a => ((get_question_by_id db a.question_id).map Question.points).getD 0)).sum

/-- The run behind the C1 counterexample: from question 0 of `mcqQuiz`,
user 7 presses the option-1 button of question 1 twice (the second press
is a stale duplicate), which advances past the end and finalizes with
question 2 never answered. -/
def c1_run : Option (BotState × BotOutput) := do
  let (st1, _) ← handle_quiz_answer (mcqState 0 []) 7 1 1 5
  handle_quiz_answer st1 7 1 1 6

/-- C1 counterexample: a finalized attempt on the two-question one-point
`mcqQuiz` (reached by pressing question 1's button twice, so question 2 is
never answered) ends with `max_score = 1`, while the sum of points over
every question of the quiz is 2. -/
theorem C1_counterexample :
    c1_run.map (fun r => (get_quiz_attempt r.1.db 1).map (fun a => (a.status, a.max_score)))
      = some (some ("completed", some 1))
    ∧ quizMaxScore mcqQuiz = 2 ∧ ((1 : ℚ) ≠ 2) := by with_unfolding_all decide

/-- C3 counterexample: on the one-question `timedOneQuiz` with
`time_limit = 60`, an answer submitted at 61 seconds finalizes the attempt
as `completed`, not `expired` — the time-limit check never runs when the
advance moves past the last question. -/
theorem C3_counterexample :
    timedOneQuiz.time_limit = some 60 ∧
    ((61 : ℚ) - 0 > 60) ∧
    (handle_quiz_answer timedOneState 7 13 23 61).map
        (fun r => ((get_quiz_attempt r.1.db 1).map QuizAttempt.status, r.1.sessions 7))
      = some (some "completed", none) ∧
    "completed" ≠ "expired" := by with_unfolding_all decide

/-- C4 counterexample: with the quota already reached
(`count = 1 = max_attempts`), invoking start on `maxedQuiz` still creates
a second Attempt row and a new Session instead of yielding
AttemptsExhausted. -/
theorem C4_counterexample :
    maxedQuiz.max_attempts ≤ (get_user_quiz_attempts maxedState.db 7 4 : Int) ∧
    maxedState.db.attempts.length = 1 ∧
    (start_quiz maxedState 7 4 100).map
        (fun r => (r.1.db.attempts.length, r.1.sessions 7, r.2))
      = some (2, some ⟨2, 4, 0, 100, []⟩, .questionShown 0) := by with_unfolding_all decide

/-- C5 counterexample: with the current question having id 1, an advance
carrying question id 2 stores the answer under key 2 and moves the index
to 1 — the session is mutated and no StaleAnswer signal exists. -/
theorem C5_counterexample :
    ((mcqState 0 []).sessions 7).map Session.current_question = some 0 ∧
    (mcqQuiz.questions[0]?).map Question.id = some 1 ∧
    ((2 : Nat) ≠ 1) ∧
    (handle_quiz_answer (mcqState 0 []) 7 2 5 3).map (fun r => (r.1.sessions 7, r.2))
      = some (some ⟨1, 1, 1, 0, [(2, .optionId 5)]⟩, .questionShown 1) := by with_unfolding_all decide

/-- C6 counterexample: an attempt expiring after 61 seconds on
`timedQuiz` keeps `time_taken = none` (not ≈ 61) and gets no score
fields; only `status` and `completed_at` are written. -/
theorem C6_counterexample :
    timedQuiz.time_limit = some 60 ∧ ((61 : ℚ) - 0 > 60) ∧
    (handle_quiz_answer timedState 7 11 21 61).map
        (fun r => (get_quiz_attempt r.1.db 1).map (fun a => (a.status, a.time_taken)))
      = some (some ("expired", none)) ∧
    (handle_quiz_answer timedState 7 11 21 61).map
        (fun r => ((get_quiz_attempt r.1.db 1).map (fun a => (a.score, a.max_score)),
          r.1.db.answers.length))
      = some (some ((none : Option ℚ), (none : Option ℚ)), 0) := by with_unfolding_all decide

/-- C7 counterexample: an answer recorded for the optionless text
question 16, whose raw value is option id 25 of the other question, is
persisted at finalization with `is_correct = true` and 5 points — not
false as the claim states for questions with no options. -/
theorem C7_counterexample :
    (get_question_by_id mixedDb 16).map Question.options = some [] ∧
    (finish_quiz mixedState 7 9).map (fun r => r.1.db.answers)
      = some [⟨1, 16, .optionId 25, true, 5⟩] ∧
    (true : Bool) ≠ false := by with_unfolding_all decide

/-! ## Basic lemmas about the stores and lookups -/

theorem putSession_self (s : Nat → Option Session) (u : Nat) (sess : Session) :
    putSession s u sess u = some sess := by
  simp [putSession]

theorem putSession_other (s : Nat → Option Session) (u v : Nat) (sess : Session)
    (h : v ≠ u) : putSession s u sess v = s v := by
  simp [putSession, h]

theorem removeSession_self (s : Nat → Option Session) (u : Nat) :
    removeSession s u u = none := by
  simp [removeSession]

theorem removeSession_other (s : Nat → Option Session) (u v : Nat) (h : v ≠ u) :
    removeSession s u v = s v := by
  simp [removeSession, h]

theorem putSession_putSession (s : Nat → Option Session) (u : Nat) (a b : Session) :
    putSession (putSession s u a) u b = putSession s u b := by
  funext v
  by_cases h : v = u <;> simp [putSession, h]

theorem removeSession_putSession (s : Nat → Option Session) (u : Nat) (a : Session) :
    removeSession (putSession s u a) u = removeSession s u := by
  funext v
  by_cases h : v = u <;> simp [removeSession, putSession, h]

theorem get_quiz_attempt_id (db : Database) (aid : Nat) (a : QuizAttempt)
    (h : get_quiz_attempt db aid = some a) : a.id = aid ∧ a ∈ db.attempts := by
  unfold get_quiz_attempt at h
  refine ⟨?_, List.mem_of_find?_eq_some h⟩
  have := List.find?_some h
  simpa using this

theorem find?_updateAttempt (aid : Nat) (a a1 : QuizAttempt) (hid : a1.id = aid) :
    ∀ l : List QuizAttempt, l.find? (fun x => x.id == aid) = some a →
      (updateAttempt l aid a1).find? (fun x => x.id == aid) = some a1
  | [], h => by simp at h
  | y :: l, h => by
    by_cases hy : y.id = aid
    · simp [updateAttempt, hy, List.find?, hid]
    · have h' : l.find? (fun x => x.id == aid) = some a := by
        simpa [List.find?_cons, hy] using h
      have ih := find?_updateAttempt aid a a1 hid l h'
      simp [updateAttempt, List.find?_cons, hy] at ih ⊢
      exact ih

theorem get_quiz_attempt_update (db : Database) (aid : Nat) (a a1 : QuizAttempt)
    (h : get_quiz_attempt db aid = some a) (hid : a1.id = aid) :
    get_quiz_attempt { db with attempts := updateAttempt db.attempts aid a1 } aid = some a1 :=
  find?_updateAttempt aid a a1 hid db.attempts h

/-! ## Lemmas about grading and scoring -/

/-- The points each answer contributes to `total_points` in
`calculate_score`: its question's `points` (0 for a dangling id, a case in
which `calculate_score` would in fact raise). -/
def questionPointsD (db : Database) (question_id : Nat) : ℚ :=
  ((get_question_by_id db question_id).map Question.points).getD 0

theorem gradeAnswer_spec (db : Database) (aid qid : Nat) (raw : RawAnswer) (a : Answer)
    (h : gradeAnswer db aid qid raw = some a) :
    a.attempt_id = aid ∧ a.question_id = qid ∧
    a.is_correct = ((resolveOption db raw).map QuestionOption.is_correct).getD false ∧
    (if a.is_correct then questionPointsD db a.question_id else 0) = a.points_earned := by
  unfold gradeAnswer at h
  cases hro : resolveOption db raw with
  | none =>
    simp only [hro] at h
    cases h
    exact ⟨rfl, rfl, by simp [hro], by simp⟩
  | some o =>
    simp only [hro] at h
    by_cases ho : o.is_correct
    · rw [if_pos ho] at h
      cases hq : get_question_by_id db qid with
      | none => rw [hq] at h; cases h
      | some q =>
        rw [hq] at h
        cases h
        exact ⟨rfl, rfl, by simp [hro, ho], by simp [questionPointsD, hq]⟩
    · rw [if_neg ho] at h
      cases h
      refine ⟨rfl, rfl, ?_, by simp⟩
      simp only [hro, Option.map_some, Option.getD_some]
      simp at ho
      exact ho.symm

theorem gradeAnswers_mem (db : Database) (aid : Nat) :
    ∀ (l : List (Nat × RawAnswer)) (nas : List Answer),
      gradeAnswers db aid l = some nas →
      ∀ a ∈ nas, ∃ p ∈ l, gradeAnswer db aid p.1 p.2 = some a
  | [], nas, h => by
    simp only [gradeAnswers] at h
    cases h
    intro a ha
    simp at ha
  | (qid, raw) :: rest, nas, h => by
    simp only [gradeAnswers, Option.bind_eq_bind] at h
    cases hga : gradeAnswer db aid qid raw with
    | none => rw [hga] at h; cases h
    | some a0 =>
      rw [hga] at h
      cases hgs : gradeAnswers db aid rest with
      | none => rw [hgs] at h; cases h
      | some tl =>
        rw [hgs] at h
        simp only [Option.some_bind, Option.some.injEq] at h
        cases h
        intro a ha
        rcases List.mem_cons.mp ha with rfl | hmem
        · exact ⟨(qid, raw), List.mem_cons_self _ _, hga⟩
        · obtain ⟨p, hp, hpa⟩ := gradeAnswers_mem db aid rest tl hgs a hmem
          exact ⟨p, List.mem_cons_of_mem _ hp, hpa⟩

theorem scoreTotals_spec (db : Database) :
    ∀ (l : List Answer) (total earned : ℚ), scoreTotals db l = some (total, earned) →
      total = (l.map (fun a => questionPointsD db a.question_id)).sum ∧
      earned = (l.map (fun a =>
        if a.is_correct then questionPointsD db a.question_id else 0)).sum
  | [], total, earned, h => by
    simp only [scoreTotals] at h
    cases h
    simp
  | a :: rest, total, earned, h => by
    simp only [scoreTotals, Option.bind_eq_bind] at h
    cases hq : get_question_by_id db a.question_id with
    | none => rw [hq] at h; cases h
    | some q =>
      rw [hq] at h
      cases hrest : scoreTotals db rest with
      | none => rw [hrest] at h; cases h
      | some te =>
        obtain ⟨t0, e0⟩ := te
        rw [hrest] at h
        simp only [Option.some_bind, Option.some.injEq, Prod.mk.injEq] at h
        obtain ⟨rfl, rfl⟩ := h
        obtain ⟨ht, he⟩ := scoreTotals_spec db rest t0 e0 hrest
        constructor
        · simp [List.map_cons, List.sum_cons, ht, questionPointsD, hq]
        · simp [List.map_cons, List.sum_cons, he, questionPointsD, hq]

theorem get_question_by_id_addAnswers (db : Database) (nas : List Answer) (qid : Nat) :
    get_question_by_id (addAnswers db nas) qid = get_question_by_id db qid := rfl

theorem get_quiz_by_id_addAnswers (db : Database) (nas : List Answer) (qid : Nat) :
    get_quiz_by_id (addAnswers db nas) qid = get_quiz_by_id db qid := rfl

theorem questionPointsD_addAnswers (db : Database) (nas : List Answer) (qid : Nat) :
    questionPointsD (addAnswers db nas) qid = questionPointsD db qid := rfl

theorem attemptAnswers_addAnswers (db : Database) (nas : List Answer) (aid : Nat) :
    attemptAnswers (addAnswers db nas) aid =
      attemptAnswers db aid ++ nas.filter (fun a => a.attempt_id == aid) := by
  simp [attemptAnswers, addAnswers, List.filter_append]

theorem gradeAnswers_filter_self (db : Database) (aid : Nat)
    (l : List (Nat × RawAnswer)) (nas : List Answer)
    (h : gradeAnswers db aid l = some nas) :
    nas.filter (fun a => a.attempt_id == aid) = nas := by
  rw [List.filter_eq_self]
  intro a ha
  obtain ⟨p, _, hpa⟩ := gradeAnswers_mem db aid l nas h a ha
  have := (gradeAnswer_spec db aid p.1 p.2 a hpa).1
  simp [this]

/-- The happy path of `finish_quiz`, with every database interaction named
by a hypothesis: the resulting state and output in closed form. -/
theorem finish_quiz_run (st : BotState) (user : Nat) (now : ℚ) (sess : Session)
    (attempt : QuizAttempt) (quiz : Quiz) (nas : List Answer)
    (total earned : ℚ) (quiz2 : Quiz)
    (hs : st.sessions user = some sess)
    (ha : get_quiz_attempt st.db sess.attempt_id = some attempt)
    (hq : get_quiz_by_id st.db sess.quiz_id = some quiz)
    (hg : gradeAnswers st.db sess.attempt_id sess.answers = some nas)
    (hsc : scoreTotals (addAnswers st.db nas)
        (attemptAnswers (addAnswers st.db nas) attempt.id) = some (total, earned))
    (hq2 : get_quiz_by_id st.db attempt.quiz_id = some quiz2) :
    finish_quiz st user now =
      some ({ db := { addAnswers st.db nas with
                attempts := updateAttempt (addAnswers st.db nas).attempts sess.attempt_id
                  (scoredAttempt (finAttempt attempt now) total earned quiz2.passing_score) }
              sessions := removeSession st.sessions user },
            .completedResult
              (scoredAttempt (finAttempt attempt now) total earned quiz2.passing_score)) := by
  have hid : (finAttempt attempt now).id = attempt.id := rfl
  have hqid : (finAttempt attempt now).quiz_id = attempt.quiz_id := rfl
  simp only [finish_quiz, hs, ha, hq, hg, calculate_score, Option.bind_eq_bind, hid, hqid,
    hsc, get_quiz_by_id_addAnswers, hq2, Option.some_bind]

theorem gradeAnswers_earned (db : Database) (aid : Nat)
    (l : List (Nat × RawAnswer)) (nas : List Answer)
    (hg : gradeAnswers db aid l = some nas) :
    (nas.map (fun a => if a.is_correct then questionPointsD db a.question_id else 0))
      = nas.map Answer.points_earned := by
  apply List.map_congr_left
  intro a ha
  obtain ⟨p, _, hpa⟩ := gradeAnswers_mem db aid l nas hg a ha
  exact (gradeAnswer_spec db aid p.1 p.2 a hpa).2.2.2

/-- C1 (amended): at finalization, `max_score` is the sum of `points` over
the questions that have a persisted Answer row for the attempt, not over
every question of the quiz. -/
theorem C1_max_score (st : BotState) (user : Nat) (now : ℚ) (sess : Session)
    (attempt : QuizAttempt) (quiz : Quiz) (nas : List Answer)
    (total earned : ℚ) (quiz2 : Quiz)
    (hs : st.sessions user = some sess)
    (ha : get_quiz_attempt st.db sess.attempt_id = some attempt)
    (hq : get_quiz_by_id st.db sess.quiz_id = some quiz)
    (hg : gradeAnswers st.db sess.attempt_id sess.answers = some nas)
    (hsc : scoreTotals (addAnswers st.db nas)
        (attemptAnswers (addAnswers st.db nas) attempt.id) = some (total, earned))
    (hq2 : get_quiz_by_id st.db attempt.quiz_id = some quiz2) :
    ∃ st' a2, finish_quiz st user now = some (st', .completedResult a2) ∧
      a2.status = "completed" ∧
      a2.max_score = some (answeredQuestionsPoints st'.db sess.attempt_id) := by
  have hids : attempt.id = sess.attempt_id := (get_quiz_attempt_id _ _ _ ha).1
  refine ⟨_, _, finish_quiz_run st user now sess attempt quiz nas total earned quiz2
    hs ha hq hg hsc hq2, rfl, ?_⟩
  obtain ⟨ht, -⟩ := scoreTotals_spec _ _ _ _ hsc
  rw [hids] at ht
  simp only [scoredAttempt, ht]
  rfl

theorem sumPointsEarned_update (db : Database) (aid uid : Nat) (a1 : QuizAttempt) :
    sumPointsEarned { db with attempts := updateAttempt db.attempts uid a1 } aid =
      sumPointsEarned db aid := rfl

/-- C2: for a completed attempt, `score` is the sum of `points_earned`
over the persisted Answer rows, `percentage` is `score/max_score*100` when
`max_score` is positive and 0 when it is 0, and `is_passed` holds exactly
when the percentage reaches `passing_score` (boundary inclusive). -/
theorem C2_completed_scoring (st : BotState) (user : Nat) (now : ℚ) (sess : Session)
    (attempt : QuizAttempt) (quiz : Quiz) (nas : List Answer)
    (total earned : ℚ) (quiz2 : Quiz)
    (hs : st.sessions user = some sess)
    (ha : get_quiz_attempt st.db sess.attempt_id = some attempt)
    (hq : get_quiz_by_id st.db sess.quiz_id = some quiz)
    (hg : gradeAnswers st.db sess.attempt_id sess.answers = some nas)
    (hsc : scoreTotals (addAnswers st.db nas)
        (attemptAnswers (addAnswers st.db nas) attempt.id) = some (total, earned))
    (hq2 : get_quiz_by_id st.db attempt.quiz_id = some quiz2)
    (hempty : attemptAnswers st.db sess.attempt_id = []) :
    ∃ st' a2, finish_quiz st user now = some (st', .completedResult a2) ∧
      a2.score = some (sumPointsEarned st'.db sess.attempt_id) ∧
      a2.max_score = some total ∧
      a2.percentage = some (pctOf earned total) ∧
      (0 < total → pctOf earned total = earned / total * 100) ∧
      (total = 0 → pctOf earned total = 0) ∧
      (a2.is_passed = some true ↔ pctOf earned total ≥ quiz2.passing_score) := by
  have hids : attempt.id = sess.attempt_id := (get_quiz_attempt_id _ _ _ ha).1
  refine ⟨_, _, finish_quiz_run st user now sess attempt quiz nas total earned quiz2
    hs ha hq hg hsc hq2, ?_, rfl, rfl, ?_, ?_, ?_⟩
  · -- score = sum of points_earned over the persisted answers
    obtain ⟨-, he⟩ := scoreTotals_spec _ _ _ _ hsc
    have hnas : attemptAnswers (addAnswers st.db nas) attempt.id = nas := by
      rw [hids, attemptAnswers_addAnswers, hempty,
        gradeAnswers_filter_self st.db sess.attempt_id sess.answers nas hg, List.nil_append]
    rw [hnas] at he
    have he2 : earned = (nas.map Answer.points_earned).sum := by
      rw [he]
      exact congrArg List.sum (gradeAnswers_earned st.db sess.attempt_id sess.answers nas hg)
    simp only [scoredAttempt, he2]
    rw [sumPointsEarned_update]
    unfold sumPointsEarned
    rw [← hids, hnas]
  · intro hpos
    simp [pctOf, hpos]
  · intro hzero
    simp [pctOf, hzero]
  · simp only [scoredAttempt]
    simp [decide_eq_true_iff]

/-- C6 (amended): finalization as `completed` stamps `completed_at`,
`time_taken` (seconds truncated to an integer) and the score fields, while
finalization as `expired` (timeout) writes only `status` and
`completed_at`, leaving `time_taken` and the score fields as they were and
persisting no Answer rows. -/
theorem C6_finalize_fields (st : BotState) (user : Nat) (now : ℚ) (sess : Session)
    (attempt : QuizAttempt) (quiz : Quiz) (nas : List Answer)
    (total earned : ℚ) (quiz2 : Quiz)
    (hs : st.sessions user = some sess)
    (ha : get_quiz_attempt st.db sess.attempt_id = some attempt)
    (hq : get_quiz_by_id st.db sess.quiz_id = some quiz)
    (hg : gradeAnswers st.db sess.attempt_id sess.answers = some nas)
    (hsc : scoreTotals (addAnswers st.db nas)
        (attemptAnswers (addAnswers st.db nas) attempt.id) = some (total, earned))
    (hq2 : get_quiz_by_id st.db attempt.quiz_id = some quiz2) :
    (∃ st1 a2, finish_quiz st user now = some (st1, .completedResult a2) ∧
      a2.completed_at = some now ∧
      a2.time_taken = some (py_int (now - attempt.started_at)) ∧
      a2.status = "completed" ∧
      a2.score = some earned ∧ a2.max_score = some total ∧
      a2.percentage = some (pctOf earned total) ∧
      get_quiz_attempt st1.db sess.attempt_id = some a2) ∧
    (∃ st2, timeout_quiz st user now = some (st2, .expiredNotice) ∧
      get_quiz_attempt st2.db sess.attempt_id =
        some { attempt with status := "expired", completed_at := some now } ∧
      st2.db.answers = st.db.answers ∧
      st2.sessions user = none) := by
  have hids : attempt.id = sess.attempt_id := (get_quiz_attempt_id _ _ _ ha).1
  constructor
  · refine ⟨_, _, finish_quiz_run st user now sess attempt quiz nas total earned quiz2
      hs ha hq hg hsc hq2, rfl, rfl, rfl, rfl, rfl, rfl, ?_⟩
    have ha' : get_quiz_attempt (addAnswers st.db nas) sess.attempt_id = some attempt := ha
    exact get_quiz_attempt_update (addAnswers st.db nas) sess.attempt_id attempt
      (scoredAttempt (finAttempt attempt now) total earned quiz2.passing_score) ha' hids
  · simp only [timeout_quiz, hs, ha]
    refine ⟨_, rfl, ?_, rfl, removeSession_self _ _⟩
    exact get_quiz_attempt_update st.db sess.attempt_id attempt
      { attempt with status := "expired", completed_at := some now } ha hids

/-- C3 (amended): once the time limit is exceeded, an advance targeting a
question that is not past the end first records the raw answer in the
in-memory session, then expires the attempt and removes the session —
whatever question id and option id were submitted; the recorded answer is
discarded with the session and never persisted. -/
theorem C3_expiry_on_advance (st : BotState) (user question_id option_id : Nat)
    (now : ℚ) (sess : Session) (quiz : Quiz) (attempt : QuizAttempt) (limit : ℚ)
    (hs : st.sessions user = some sess)
    (hq : get_quiz_by_id st.db sess.quiz_id = some quiz)
    (ha : get_quiz_attempt st.db sess.attempt_id = some attempt)
    (hl : quiz.time_limit = some limit)
    (ht : limit < now - sess.start_time)
    (hlt : sess.current_question + 1 < quiz.questions.length) :
    ∃ st', handle_quiz_answer st user question_id option_id now =
        some (st', .expiredNotice) ∧
      get_quiz_attempt st'.db sess.attempt_id =
        some { attempt with status := "expired", completed_at := some now } ∧
      st'.db.answers = st.db.answers ∧
      st'.sessions user = none := by
  have hids : attempt.id = sess.attempt_id := (get_quiz_attempt_id _ _ _ ha).1
  have hnle : ¬ (quiz.questions.length ≤ sess.current_question + 1) := Nat.not_le.mpr hlt
  simp only [handle_quiz_answer, hs, show_question, putSession_self, hq, hnle, if_false,
    hl, ht, if_true, timeout_quiz, ha]
  refine ⟨_, rfl, ?_, rfl, removeSession_self _ _⟩
  exact get_quiz_attempt_update st.db sess.attempt_id attempt
    { attempt with status := "expired", completed_at := some now } ha hids

/-- C5 (amended): an advance records the submitted raw answer under the
submitted question id — whether or not it matches the current question —
and unconditionally moves to the next index; there is no mismatch guard
and no StaleAnswer signal. -/
theorem C5_no_stale_guard (st : BotState) (user question_id option_id : Nat)
    (now : ℚ) (sess : Session) (quiz : Quiz)
    (hs : st.sessions user = some sess)
    (hq : get_quiz_by_id st.db sess.quiz_id = some quiz)
    (hnl : quiz.time_limit = none)
    (hlt : sess.current_question + 1 < quiz.questions.length) :
    handle_quiz_answer st user question_id option_id now =
      some (⟨st.db,
             putSession st.sessions user
               { sess with answers := setAnswer sess.answers question_id (.optionId option_id), current_question := sess.current_question + 1 }⟩,
            .questionShown (sess.current_question + 1)) := by
  have hnle : ¬ (quiz.questions.length ≤ sess.current_question + 1) := Nat.not_le.mpr hlt
  simp only [handle_quiz_answer, hs, show_question, putSession_self, hq, hnle, if_false, hnl,
    putSession_putSession]

/-- C4 (amended): the attempts quota is enforced by the quiz-info step,
which refuses with the exhausted-attempts message and performs no state
change; `start_quiz` itself never checks the quota. -/
theorem C4_quota_check (st : BotState) (user quiz_id : Nat) (quiz : Quiz)
    (hq : get_quiz_by_id st.db quiz_id = some quiz)
    (hact : quiz.is_active = true)
    (hcount : quiz.max_attempts ≤ (get_user_quiz_attempts st.db user quiz.id : Int)) :
    show_quiz_info st user quiz_id = (st, .attemptsExhausted) := by
  have hle : quiz.max_attempts - (get_user_quiz_attempts st.db user quiz.id : Int) ≤ 0 :=
    sub_nonpos.mpr hcount
  simp only [show_quiz_info, hq, hact, hle, if_true]

/-- C7 (amended): a persisted answer's `is_correct` is the flag of the
option found by global id lookup of the raw value — independent of which
question was answered — with `false` when nothing resolves (in particular
for every free-text raw answer), and `points_earned` is the question's
points when correct and 0 otherwise. -/
theorem C7_grading (db : Database) (attempt_id question_id : Nat)
    (raw : RawAnswer) (a : Answer)
    (h : gradeAnswer db attempt_id question_id raw = some a) :
    a.is_correct = ((resolveOption db raw).map QuestionOption.is_correct).getD false ∧
    (∀ s, raw = .text s → a.is_correct = false) ∧
    (a.is_correct = false → a.points_earned = 0) ∧
    (a.is_correct = true →
      ∃ q, get_question_by_id db question_id = some q ∧ a.points_earned = q.points) := by
  obtain ⟨-, hqid, hcorr, hpts⟩ := gradeAnswer_spec db attempt_id question_id raw a h
  refine ⟨hcorr, ?_, ?_, ?_⟩
  · intro s hraw
    subst hraw
    simpa [resolveOption] using hcorr
  · intro hfalse
    rw [hfalse] at hpts
    simpa using hpts.symm
  · intro htrue
    rw [htrue] at hpts
    simp only [if_true] at hpts
    unfold gradeAnswer at h
    cases hro : resolveOption db raw with
    | none =>
      rw [hcorr, hro] at htrue
      simp at htrue
    | some o =>
      rw [hro] at h
      have ho : o.is_correct := by
        rw [hcorr, hro] at htrue
        simpa using htrue
      rw [if_pos ho] at h
      cases hqq : get_question_by_id db question_id with
      | none => rw [hqq] at h; cases h
      | some q =>
        rw [hqq] at h
        cases h
        exact ⟨q, rfl, rfl⟩

/-- C10: submitting the text answer to the last (text/boolean) question
records it in the session and runs the `finish_quiz_text` stub: the
database is untouched (no Answer rows, no attempt update) and the session
stays in the store. -/
theorem C10_text_finish_no_finalize (st : BotState) (user : Nat) (text : String)
    (now : ℚ) (sess : Session) (quiz : Quiz) (current : Question)
    (hs : st.sessions user = some sess)
    (hq : get_quiz_by_id st.db sess.quiz_id = some quiz)
    (hcur : quiz.questions[sess.current_question]? = some current)
    (hty : current.question_type = "text" ∨ current.question_type = "boolean")
    (hlast : ¬ (sess.current_question + 1 < quiz.questions.length)) :
    handle_text_message st user text now =
      some (⟨st.db,
             putSession st.sessions user
               { sess with answers := setAnswer sess.answers current.id (.text text) }⟩,
            .textQuizFinished) := by
  simp only [handle_text_message, hs, hq, hcur]
  rw [if_pos hty, if_neg hlast]
  rfl

theorem finish_quiz_sessions (st st' : BotState) (u : Nat) (now : ℚ) (o : BotOutput)
    (h : finish_quiz st u now = some (st', o)) :
    (st.sessions u = none ∧ st' = st) ∨ st'.sessions = removeSession st.sessions u := by
  unfold finish_quiz at h
  split at h
  next hs => cases h; exact Or.inl ⟨hs, rfl⟩
  next sess hs =>
    split at h
    next attempt _quiz _ _ =>
      split at h
      · cases h
      next nas hg =>
        dsimp only at h
        split at h
        · cases h
        next a2 hc => cases h; exact Or.inr rfl
    next => cases h

theorem timeout_quiz_sessions (st st' : BotState) (u : Nat) (now : ℚ) (o : BotOutput)
    (h : timeout_quiz st u now = some (st', o)) :
    (st.sessions u = none ∧ st' = st) ∨ st'.sessions = removeSession st.sessions u := by
  unfold timeout_quiz at h
  split at h
  next hs => cases h; exact Or.inl ⟨hs, rfl⟩
  next sess hs =>
    split at h
    · cases h
    next attempt ha => cases h; exact Or.inr rfl

theorem show_question_sessions (st st' : BotState) (u idx : Nat) (now : ℚ) (o : BotOutput)
    (h : show_question st u idx now = some (st', o)) :
    (st.sessions u = none ∧ st' = st) ∨
    st'.sessions = removeSession st.sessions u ∨
    (∃ sess, st.sessions u = some sess ∧
      st'.sessions = putSession st.sessions u { sess with current_question := idx }) := by
  unfold show_question at h
  split at h
  next hs => cases h; exact Or.inl ⟨hs, rfl⟩
  next sess hs =>
    split at h
    · cases h
    next quiz hq =>
      split at h
      · rcases finish_quiz_sessions st st' u now o h with ⟨hnone, rfl⟩ | hrem
        · rw [hs] at hnone; cases hnone
        · exact Or.inr (Or.inl hrem)
      · split at h
        next limit hl =>
          split at h
          · rcases timeout_quiz_sessions _ _ _ _ _ h with ⟨hnone, hst⟩ | hrem
            · simp [putSession_self] at hnone
            · dsimp only at hrem
              rw [removeSession_putSession] at hrem
              exact Or.inr (Or.inl hrem)
          · cases h; exact Or.inr (Or.inr ⟨sess, hs, rfl⟩)
        next hl => cases h; exact Or.inr (Or.inr ⟨sess, hs, rfl⟩)

/-- C9: the session store is keyed by the participant alone.  Starting any
quiz unconditionally replaces the participant's existing session —
whatever quiz that session belonged to — and finalization or timeout
removes the participant's session; no operation touches another
participant's entry. -/
theorem C9_single_session (st : BotState) (u qid : Nat) (now : ℚ)
    (oldSess : Session) (quiz : Quiz)
    (hs : st.sessions u = some oldSess)
    (hq : get_quiz_by_id st.db qid = some quiz)
    (hact : quiz.is_active = true)
    (hold : oldSess.attempt_id ≠ st.db.next_attempt_id) :
    (∀ st' out, start_quiz st u qid now = some (st', out) →
      (∀ v, v ≠ u → st'.sessions v = st.sessions v) ∧
      st'.sessions u ≠ some oldSess ∧
      (st'.sessions u = none ∨ ∃ s2, st'.sessions u = some s2 ∧
        s2.quiz_id = quiz.id ∧ s2.attempt_id = st.db.next_attempt_id)) ∧
    (∀ st2 o2, finish_quiz st u now = some (st2, o2) →
      st2.sessions u = none ∧ ∀ v, v ≠ u → st2.sessions v = st.sessions v) ∧
    (∀ st3 o3, timeout_quiz st u now = some (st3, o3) →
      st3.sessions u = none ∧ ∀ v, v ≠ u → st3.sessions v = st.sessions v) := by
  refine ⟨?_, ?_, ?_⟩
  · intro st' out h
    unfold start_quiz at h
    simp only [hq] at h
    rw [if_pos hact] at h
    rcases show_question_sessions _ _ _ _ _ _ h with ⟨hnone, hst⟩ | hrem | ⟨sess0, hsess0, hput⟩
    · simp [putSession_self] at hnone
    · dsimp only at hrem
      rw [removeSession_putSession] at hrem
      refine ⟨?_, ?_, Or.inl ?_⟩
      · intro v hv; rw [hrem, removeSession_other _ _ _ hv]
      · rw [hrem, removeSession_self]; simp
      · rw [hrem, removeSession_self]
    · dsimp only at hsess0 hput
      rw [putSession_self] at hsess0
      cases hsess0
      rw [putSession_putSession] at hput
      have hu : st'.sessions u = some
          { attempt_id := st.db.next_attempt_id, quiz_id := quiz.id
            current_question := 0, start_time := now, answers := [] } := by
        rw [hput, putSession_self]
        rfl
      refine ⟨?_, ?_, Or.inr ⟨_, hu, rfl, rfl⟩⟩
      · intro v hv; rw [hput, putSession_other _ _ _ _ hv]
      · rw [hu]
        intro hcontra
        cases hcontra
        exact hold rfl
  · intro st2 o2 h
    rcases finish_quiz_sessions _ _ _ _ _ h with ⟨hnone, rfl⟩ | hrem
    · rw [hs] at hnone; cases hnone
    · exact ⟨by rw [hrem, removeSession_self],
        fun v hv => by rw [hrem, removeSession_other _ _ _ hv]⟩
  · intro st3 o3 h
    rcases timeout_quiz_sessions _ _ _ _ _ h with ⟨hnone, rfl⟩ | hrem
    · rw [hs] at hnone; cases hnone
    · exact ⟨by rw [hrem, removeSession_self],
        fun v hv => by rw [hrem, removeSession_other _ _ _ hv]⟩

/-! ## The attempt-status invariant and its preservation (C8) -/

/-- Every persisted attempt id is below the autoincrement counter. -/
def freshIds (db : Database) : Prop :=
  ∀ a ∈ db.attempts, a.id < db.next_attempt_id

/-- Attempt primary keys are unique. -/
def uniqueIds (db : Database) : Prop :=
  (db.attempts.map QuizAttempt.id).Nodup

/-- Every live session points at an existing attempt that is still
`in_progress`. -/
def liveSessionsInProgress (st : BotState) : Prop :=
  ∀ u sess, st.sessions u = some sess →
    ∃ a, get_quiz_attempt st.db sess.attempt_id = some a ∧ a.status = "in_progress"

/-- Distinct participants' sessions reference distinct attempts. -/
def sessionsDistinct (st : BotState) : Prop :=
  ∀ u v su sv, st.sessions u = some su → st.sessions v = some sv → u ≠ v →
    su.attempt_id ≠ sv.attempt_id

/-- The reachable-state invariant of the engine. -/
def EngineInv (st : BotState) : Prop :=
  freshIds st.db ∧ uniqueIds st.db ∧ liveSessionsInProgress st ∧ sessionsDistinct st

/-- One attempt row's permitted evolution across one engine step: either
untouched (all fields, score included), or a transition out of
`in_progress` into a terminal status. -/
def statusStep (a a1 : QuizAttempt) : Prop :=
  a1 = a ∨ (a.status = "in_progress" ∧
    (a1.status = "completed" ∨ a1.status = "expired" ∨ a1.status = "abandoned"))

/-- Pointwise (by primary key) permitted evolution of the attempts table. -/
def AttemptsMono (l l1 : List QuizAttempt) : Prop :=
  ∀ a ∈ l, ∀ a1 ∈ l1, a1.id = a.id → statusStep a a1

theorem uniqueIds_inj {db : Database} (h : uniqueIds db) {a b : QuizAttempt}
    (ha : a ∈ db.attempts) (hb : b ∈ db.attempts) (hid : b.id = a.id) : b = a :=
  List.inj_on_of_nodup_map h hb ha hid

theorem attemptsMono_refl {db : Database} (h : uniqueIds db) :
    AttemptsMono db.attempts db.attempts := by
  intro a ha a1 ha1 hid
  exact Or.inl (uniqueIds_inj h ha ha1 hid)

theorem mem_updateAttempt {l : List QuizAttempt} {aid : Nat} {a1 b : QuizAttempt}
    (h : b ∈ updateAttempt l aid a1) :
    ∃ c ∈ l, b = if c.id = aid then a1 else c := by
  obtain ⟨c, hc, hcb⟩ := List.mem_map.mp h
  exact ⟨c, hc, hcb.symm⟩

theorem updateAttempt_map_id {l : List QuizAttempt} {aid : Nat} {a1 : QuizAttempt}
    (hid : a1.id = aid) :
    (updateAttempt l aid a1).map QuizAttempt.id = l.map QuizAttempt.id := by
  unfold updateAttempt
  rw [List.map_map]
  apply List.map_congr_left
  intro c _
  by_cases hc : c.id = aid <;> simp [hc, hid]

theorem find?_updateAttempt_ne {l : List QuizAttempt} {aid bid : Nat} {a1 : QuizAttempt}
    (hid : a1.id = aid) (hne : bid ≠ aid) :
    (updateAttempt l aid a1).find? (fun x => x.id == bid) =
      l.find? (fun x => x.id == bid) := by
  induction l with
  | nil => rfl
  | cons y l ih =>
    by_cases hy : y.id = aid
    · have h1 : (a1.id == bid) = false := by simp [hid, Ne.symm hne]
      have h2 : (y.id == bid) = false := by simp [hy, Ne.symm hne]
      simp only [updateAttempt, List.map_cons, if_pos hy, List.find?_cons, h1, h2]
      exact ih
    · simp only [updateAttempt, List.map_cons, if_neg hy, List.find?_cons]
      cases hyb : (y.id == bid) with
      | true => rfl
      | false => exact ih

theorem find?_append_old {l : List QuizAttempt} {fr a : QuizAttempt} {p : QuizAttempt → Bool}
    (h : l.find? p = some a) : (l ++ [fr]).find? p = some a := by
  rw [List.find?_append, h]
  rfl

theorem find?_append_fresh {l : List QuizAttempt} {fr : QuizAttempt} {n : Nat}
    (hl : ∀ a ∈ l, a.id ≠ n) (hfr : fr.id = n) :
    (l ++ [fr]).find? (fun x => x.id == n) = some fr := by
  rw [List.find?_append]
  have h1 : l.find? (fun x => x.id == n) = none := by
    rw [List.find?_eq_none]
    intro a ha
    simpa using hl a ha
  rw [h1]
  simp [List.find?, hfr]

theorem freshIds_update_list {l : List QuizAttempt} {n aid : Nat} {attempt a1 : QuizAttempt}
    (hf : ∀ a ∈ l, a.id < n) (hmem : attempt ∈ l) (haid : attempt.id = aid)
    (hid1 : a1.id = aid) :
    ∀ a ∈ updateAttempt l aid a1, a.id < n := by
  intro b hb
  rcases mem_updateAttempt hb with ⟨c, hc, rfl⟩
  by_cases hcid : c.id = aid
  · rw [if_pos hcid, hid1, ← haid]
    exact hf attempt hmem
  · rw [if_neg hcid]
    exact hf c hc

theorem mono_update_list {l : List QuizAttempt} {aid : Nat} {attempt a1 : QuizAttempt}
    (huniq : (l.map QuizAttempt.id).Nodup)
    (hmem : attempt ∈ l) (haid : attempt.id = aid)
    (hprog : attempt.status = "in_progress")
    (hid1 : a1.id = aid)
    (hterm : a1.status = "completed" ∨ a1.status = "expired" ∨ a1.status = "abandoned") :
    AttemptsMono l (updateAttempt l aid a1) := by
  intro a ha b hb hbid
  rcases mem_updateAttempt hb with ⟨c, hc, rfl⟩
  by_cases hcid : c.id = aid
  · rw [if_pos hcid] at hbid ⊢
    have haa : a = attempt := by
      apply List.inj_on_of_nodup_map huniq ha hmem
      rw [haid, ← hid1, hbid]
    subst haa
    exact Or.inr ⟨hprog, hterm⟩
  · rw [if_neg hcid] at hbid ⊢
    exact Or.inl (List.inj_on_of_nodup_map huniq hc ha hbid)

theorem calculate_score_shape (db : Database) (a a2 : QuizAttempt)
    (h : calculate_score db a = some a2) : a2.id = a.id ∧ a2.status = a.status := by
  unfold calculate_score at h
  simp only [Option.bind_eq_bind] at h
  cases hst : scoreTotals db (attemptAnswers db a.id) with
  | none => rw [hst] at h; cases h
  | some te =>
    obtain ⟨t, e⟩ := te
    rw [hst] at h
    simp only [Option.some_bind] at h
    cases hq : get_quiz_by_id db a.quiz_id with
    | none => rw [hq] at h; cases h
    | some q =>
      rw [hq] at h
      simp only [Option.some_bind] at h
      cases h
      exact ⟨rfl, rfl⟩

theorem engineInv_put (st : BotState) (u : Nat) (sess sess1 : Session)
    (hInv : EngineInv st) (hs : st.sessions u = some sess)
    (hsame : sess1.attempt_id = sess.attempt_id) :
    EngineInv ⟨st.db, putSession st.sessions u sess1⟩ := by
  obtain ⟨hf, hu, hlive, hdist⟩ := hInv
  refine ⟨hf, hu, ?_, ?_⟩
  · intro v sv hv
    dsimp only at hv ⊢
    by_cases hvu : v = u
    · subst hvu
      rw [putSession_self] at hv
      cases hv
      rw [hsame]
      exact hlive v sess hs
    · rw [putSession_other _ _ _ _ hvu] at hv
      exact hlive v sv hv
  · intro v w sv sw hv hw hvw
    dsimp only at hv hw
    by_cases hvu : v = u
    · subst hvu
      rw [putSession_self] at hv
      cases hv
      rw [putSession_other _ _ _ _ (Ne.symm hvw)] at hw
      rw [hsame]
      exact hdist v w sess sw hs hw hvw
    · rw [putSession_other _ _ _ _ hvu] at hv
      by_cases hwu : w = u
      · subst hwu
        rw [putSession_self] at hw
        cases hw
        rw [hsame]
        exact hdist v w sv sess hv hs hvw
      · rw [putSession_other _ _ _ _ hwu] at hw
        exact hdist v w sv sw hv hw hvw

theorem timeout_quiz_ok (st st1 : BotState) (u : Nat) (now : ℚ) (o : BotOutput)
    (hInv : EngineInv st) (h : timeout_quiz st u now = some (st1, o)) :
    EngineInv st1 ∧ AttemptsMono st.db.attempts st1.db.attempts := by
  obtain ⟨hf, hu, hlive, hdist⟩ := hInv
  unfold timeout_quiz at h
  split at h
  next hs => cases h; exact ⟨⟨hf, hu, hlive, hdist⟩, attemptsMono_refl hu⟩
  next sess hs =>
    split at h
    · cases h
    next attempt ha =>
      dsimp only at h
      cases h
      obtain ⟨haid, hamem⟩ := get_quiz_attempt_id _ _ _ ha
      obtain ⟨a0, ha0, hstat⟩ := hlive u sess hs
      rw [ha] at ha0
      cases ha0
      have hid1 : ({ attempt with status := "expired", completed_at := some now }
          : QuizAttempt).id = sess.attempt_id := haid
      refine ⟨⟨?_, ?_, ?_, ?_⟩, ?_⟩
      · exact freshIds_update_list hf hamem haid hid1
      · show (List.map QuizAttempt.id _).Nodup
        dsimp only
        rw [updateAttempt_map_id hid1]
        exact hu
      · intro v sv hv
        dsimp only at hv ⊢
        by_cases hvu : v = u
        · subst hvu
          rw [removeSession_self] at hv
          cases hv
        · rw [removeSession_other _ _ _ hvu] at hv
          obtain ⟨b, hb, hbstat⟩ := hlive v sv hv
          refine ⟨b, ?_, hbstat⟩
          show (updateAttempt st.db.attempts sess.attempt_id _).find?
            (fun x => x.id == sv.attempt_id) = some b
          rw [find?_updateAttempt_ne hid1 (hdist v u sv sess hv hs hvu)]
          exact hb
      · intro v w sv sw hv hw hvw
        dsimp only at hv hw
        by_cases hvu : v = u
        · subst hvu; rw [removeSession_self] at hv; cases hv
        · by_cases hwu : w = u
          · subst hwu; rw [removeSession_self] at hw; cases hw
          · rw [removeSession_other _ _ _ hvu] at hv
            rw [removeSession_other _ _ _ hwu] at hw
            exact hdist v w sv sw hv hw hvw
      · exact mono_update_list hu hamem haid hstat hid1 (Or.inr (Or.inl rfl))

theorem finish_quiz_ok (st st1 : BotState) (u : Nat) (now : ℚ) (o : BotOutput)
    (hInv : EngineInv st) (h : finish_quiz st u now = some (st1, o)) :
    EngineInv st1 ∧ AttemptsMono st.db.attempts st1.db.attempts := by
  obtain ⟨hf, hu, hlive, hdist⟩ := hInv
  unfold finish_quiz at h
  split at h
  next hs => cases h; exact ⟨⟨hf, hu, hlive, hdist⟩, attemptsMono_refl hu⟩
  next sess hs =>
    split at h
    next attempt _quiz ha hq =>
      split at h
      · cases h
      next nas hg =>
        dsimp only at h
        split at h
        · cases h
        next a2 hc =>
          cases h
          obtain ⟨haid, hamem⟩ := get_quiz_attempt_id _ _ _ ha
          obtain ⟨a0, ha0, hstat⟩ := hlive u sess hs
          rw [ha] at ha0
          cases ha0
          obtain ⟨hcid, hcstat⟩ := calculate_score_shape _ _ _ hc
          have hid1 : a2.id = sess.attempt_id := by
            rw [hcid]; exact haid
          have hstat1 : a2.status = "completed" := hcstat
          refine ⟨⟨?_, ?_, ?_, ?_⟩, ?_⟩
          · exact freshIds_update_list hf hamem haid hid1
          · show (List.map QuizAttempt.id _).Nodup
            dsimp only
            rw [updateAttempt_map_id hid1]
            exact hu
          · intro v sv hv
            dsimp only at hv ⊢
            by_cases hvu : v = u
            · subst hvu
              rw [removeSession_self] at hv
              cases hv
            · rw [removeSession_other _ _ _ hvu] at hv
              obtain ⟨b, hb, hbstat⟩ := hlive v sv hv
              refine ⟨b, ?_, hbstat⟩
              show (updateAttempt (addAnswers st.db nas).attempts sess.attempt_id a2).find?
                (fun x => x.id == sv.attempt_id) = some b
              rw [find?_updateAttempt_ne hid1 (hdist v u sv sess hv hs hvu)]
              exact hb
          · intro v w sv sw hv hw hvw
            dsimp only at hv hw
            by_cases hvu : v = u
            · subst hvu; rw [removeSession_self] at hv; cases hv
            · by_cases hwu : w = u
              · subst hwu; rw [removeSession_self] at hw; cases hw
              · rw [removeSession_other _ _ _ hvu] at hv
                rw [removeSession_other _ _ _ hwu] at hw
                exact hdist v w sv sw hv hw hvw
          · exact mono_update_list hu hamem haid hstat hid1 (Or.inl hstat1)
    next => cases h

theorem show_question_ok (st st1 : BotState) (u idx : Nat) (now : ℚ) (o : BotOutput)
    (hInv : EngineInv st) (h : show_question st u idx now = some (st1, o)) :
    EngineInv st1 ∧ AttemptsMono st.db.attempts st1.db.attempts := by
  unfold show_question at h
  split at h
  next hs => cases h; exact ⟨hInv, attemptsMono_refl hInv.2.1⟩
  next sess hs =>
    split at h
    · cases h
    next quiz hq =>
      split at h
      · exact finish_quiz_ok st st1 u now o hInv h
      · have hput : EngineInv ⟨st.db,
            putSession st.sessions u { sess with current_question := idx }⟩ :=
          engineInv_put st u sess _ hInv hs rfl
        split at h
        next limit hl =>
          split at h
          · exact timeout_quiz_ok
              ⟨st.db, putSession st.sessions u { sess with current_question := idx }⟩
              st1 u now o hput h
          · cases h; exact ⟨hput, attemptsMono_refl hInv.2.1⟩
        next => cases h; exact ⟨hput, attemptsMono_refl hInv.2.1⟩

theorem handle_quiz_answer_ok (st st1 : BotState) (u qid oid : Nat) (now : ℚ) (o : BotOutput)
    (hInv : EngineInv st) (h : handle_quiz_answer st u qid oid now = some (st1, o)) :
    EngineInv st1 ∧ AttemptsMono st.db.attempts st1.db.attempts := by
  unfold handle_quiz_answer at h
  split at h
  next hs => cases h; exact ⟨hInv, attemptsMono_refl hInv.2.1⟩
  next sess hs =>
    dsimp only at h
    have hput : EngineInv ⟨st.db,
        putSession st.sessions u
          { sess with answers := setAnswer sess.answers qid (.optionId oid) }⟩ :=
      engineInv_put st u sess _ hInv hs rfl
    exact show_question_ok
      ⟨st.db, putSession st.sessions u
        { sess with answers := setAnswer sess.answers qid (.optionId oid) }⟩
      st1 u (sess.current_question + 1) now o hput h

theorem show_question_text_ok (st st1 : BotState) (u idx : Nat) (o : BotOutput)
    (hInv : EngineInv st) (h : show_question_text st u idx = some (st1, o)) :
    EngineInv st1 ∧ AttemptsMono st.db.attempts st1.db.attempts := by
  unfold show_question_text at h
  split at h
  · cases h
  next sess hs =>
    split at h
    · cases h
    next quiz hq =>
      split at h
      · cases h
      next q hcur =>
        cases h
        exact ⟨engineInv_put st u sess _ hInv hs rfl, attemptsMono_refl hInv.2.1⟩

theorem handle_text_message_ok (st st1 : BotState) (u : Nat) (txt : String) (now : ℚ)
    (o : BotOutput)
    (hInv : EngineInv st) (h : handle_text_message st u txt now = some (st1, o)) :
    EngineInv st1 ∧ AttemptsMono st.db.attempts st1.db.attempts := by
  unfold handle_text_message at h
  split at h
  next hs => cases h; exact ⟨hInv, attemptsMono_refl hInv.2.1⟩
  next sess hs =>
    split at h
    · cases h
    next quiz hq =>
      split at h
      · cases h
      next q hcur =>
        split at h
        · dsimp only at h
          have hput : EngineInv ⟨st.db,
              putSession st.sessions u
                { sess with answers := setAnswer sess.answers q.id (.text txt) }⟩ :=
            engineInv_put st u sess _ hInv hs rfl
          split at h
          · exact show_question_text_ok
              ⟨st.db, putSession st.sessions u
                { sess with answers := setAnswer sess.answers q.id (.text txt) }⟩
              st1 u (sess.current_question + 1) o hput h
          · cases h
            exact ⟨hput, attemptsMono_refl hInv.2.1⟩
        · cases h; exact ⟨hInv, attemptsMono_refl hInv.2.1⟩

theorem show_quiz_info_ok (st : BotState) (u qid : Nat)
    (hInv : EngineInv st) :
    EngineInv (show_quiz_info st u qid).1 ∧
      AttemptsMono st.db.attempts (show_quiz_info st u qid).1.db.attempts := by
  unfold show_quiz_info
  split
  · exact ⟨hInv, attemptsMono_refl hInv.2.1⟩
  · split
    · split
      · exact ⟨hInv, attemptsMono_refl hInv.2.1⟩
      · exact ⟨hInv, attemptsMono_refl hInv.2.1⟩
    · exact ⟨hInv, attemptsMono_refl hInv.2.1⟩

theorem attemptsMono_of_subset {l l1 l2 : List QuizAttempt}
    (hmono : AttemptsMono l1 l2) (hsub : ∀ a ∈ l, a ∈ l1) : AttemptsMono l l2 :=
  fun a ha a1 ha1 hid => hmono a (hsub a ha) a1 ha1 hid

theorem start_quiz_ok (st st1 : BotState) (u qid : Nat) (now : ℚ) (o : BotOutput)
    (hInv : EngineInv st) (h : start_quiz st u qid now = some (st1, o)) :
    EngineInv st1 ∧ AttemptsMono st.db.attempts st1.db.attempts := by
  obtain ⟨hf, hu, hlive, hdist⟩ := hInv
  unfold start_quiz at h
  split at h
  next => cases h; exact ⟨⟨hf, hu, hlive, hdist⟩, attemptsMono_refl hu⟩
  next quiz hq =>
    split at h
    · dsimp only at h
      have hmid : EngineInv
          ⟨{ quizzes := st.db.quizzes, attempts := st.db.attempts ++ [newAttempt st.db u quiz.id now]
             answers := st.db.answers, next_attempt_id := st.db.next_attempt_id + 1 },
           putSession st.sessions u
             { attempt_id := (newAttempt st.db u quiz.id now).id, quiz_id := quiz.id
               current_question := 0, start_time := now, answers := [] }⟩ := by
        refine ⟨?_, ?_, ?_, ?_⟩
        · intro a ha
          rcases List.mem_append.mp ha with hmem | hfr
          · exact Nat.lt_succ_of_lt (hf a hmem)
          · rw [List.mem_singleton.mp hfr]
            exact Nat.lt_succ_self _
        · show ((st.db.attempts ++ [newAttempt st.db u quiz.id now]).map QuizAttempt.id).Nodup
          rw [List.map_append]
          refine List.Nodup.append hu (List.nodup_singleton _) ?_
          simp only [List.map_singleton, List.disjoint_singleton]
          intro hmem
          obtain ⟨a, hmem', hid⟩ := List.mem_map.mp hmem
          exact absurd hid (Nat.ne_of_lt (hf a hmem'))
        · intro v sv hv
          dsimp only at hv ⊢
          by_cases hvu : v = u
          · rw [hvu, putSession_self] at hv
            cases hv
            refine ⟨newAttempt st.db u quiz.id now, ?_, rfl⟩
            show (st.db.attempts ++ [newAttempt st.db u quiz.id now]).find?
              (fun x => x.id == st.db.next_attempt_id) = some (newAttempt st.db u quiz.id now)
            exact find?_append_fresh (fun a ha => Nat.ne_of_lt (hf a ha)) rfl
          · rw [putSession_other _ _ _ _ hvu] at hv
            obtain ⟨b, hb, hbstat⟩ := hlive v sv hv
            refine ⟨b, ?_, hbstat⟩
            show (st.db.attempts ++ [newAttempt st.db u quiz.id now]).find?
              (fun x => x.id == sv.attempt_id) = some b
            exact find?_append_old hb
        · intro v w sv sw hv hw hvw
          dsimp only at hv hw
          by_cases hvu : v = u
          · have hwu : w ≠ u := by rw [← hvu]; exact Ne.symm hvw
            rw [hvu, putSession_self] at hv
            cases hv
            rw [putSession_other _ _ _ _ hwu] at hw
            obtain ⟨b, hb, -⟩ := hlive w sw hw
            obtain ⟨hbid, hbmem⟩ := get_quiz_attempt_id _ _ _ hb
            show st.db.next_attempt_id ≠ sw.attempt_id
            rw [← hbid]
            exact (Nat.ne_of_lt (hf b hbmem)).symm
          · rw [putSession_other _ _ _ _ hvu] at hv
            by_cases hwu : w = u
            · rw [hwu, putSession_self] at hw
              cases hw
              obtain ⟨b, hb, -⟩ := hlive v sv hv
              obtain ⟨hbid, hbmem⟩ := get_quiz_attempt_id _ _ _ hb
              show sv.attempt_id ≠ st.db.next_attempt_id
              rw [← hbid]
              exact Nat.ne_of_lt (hf b hbmem)
            · rw [putSession_other _ _ _ _ hwu] at hw
              exact hdist v w sv sw hv hw hvw
      obtain ⟨hinv1, hmono1⟩ := show_question_ok _ st1 u 0 now o hmid h
      refine ⟨hinv1, attemptsMono_of_subset hmono1 ?_⟩
      intro a ha
      exact List.mem_append_left _ ha
    · cases h; exact ⟨⟨hf, hu, hlive, hdist⟩, attemptsMono_refl hu⟩

/-- C8: every engine step preserves the reachable-state invariant, and on
the attempts table it is monotonic: an `in_progress` attempt can only stay
`in_progress` or move to a terminal status, and an attempt already in a
terminal status is left entirely unchanged (status and score fields
included). -/
theorem C8_status_monotonic (st st1 : BotState) (ev : BotEvent) (out : BotOutput)
    (hInv : EngineInv st) (h : step st ev = some (st1, out)) :
    EngineInv st1 ∧
    ∀ a ∈ st.db.attempts, ∀ a1 ∈ st1.db.attempts, a1.id = a.id →
      (a.status ≠ "in_progress" → a1 = a) ∧
      (a.status = "in_progress" → a1.status = "in_progress" ∨
        a1.status = "completed" ∨ a1.status = "expired" ∨ a1.status = "abandoned") := by
  have key : EngineInv st1 ∧ AttemptsMono st.db.attempts st1.db.attempts := by
    cases ev with
    | quizInfo u qid =>
      simp only [step] at h
      have h1 : (show_quiz_info st u qid).1 = st1 :=
        congrArg Prod.fst (Option.some.inj h)
      subst h1
      exact show_quiz_info_ok st u qid hInv
    | startQuiz u qid now => exact start_quiz_ok st st1 u qid now out hInv h
    | answerCallback u qid oid now =>
      exact handle_quiz_answer_ok st st1 u qid oid now out hInv h
    | textMessage u txt now =>
      exact handle_text_message_ok st st1 u txt now out hInv h
  obtain ⟨hinv1, hmono⟩ := key
  refine ⟨hinv1, ?_⟩
  intro a ha a1 ha1 hid
  have hst := hmono a ha a1 ha1 hid
  constructor
  · intro hterm
    rcases hst with heq | ⟨hprog, -⟩
    · exact heq
    · exact absurd hprog hterm
  · intro hprog
    rcases hst with heq | ⟨-, hterm⟩
    · left; rw [heq]; exact hprog
    · right; exact hterm

/-! ## Witnesses: the claim theorems applied at concrete inputs -/

theorem engineInv_oneSession (db : Database) (u : Nat) (s : Session) (a : QuizAttempt)
    (hfind : get_quiz_attempt db s.attempt_id = some a)
    (hstat : a.status = "in_progress")
    (hf : freshIds db) (hu : uniqueIds db) :
    EngineInv ⟨db, oneSession u s⟩ := by
  refine ⟨hf, hu, ?_, ?_⟩
  · intro v sv hv
    unfold oneSession at hv
    dsimp only at hv
    split at hv
    · cases hv; exact ⟨a, hfind, hstat⟩
    · cases hv
  · intro v w sv sw hv hw hvw
    unfold oneSession at hv hw
    dsimp only at hv hw
    split at hv
    next hvu =>
      split at hw
      next hwu => exact absurd (hvu.trans hwu.symm) hvw
      next => cases hw
    next => cases hv

theorem mcqState_engineInv : EngineInv (mcqState 0 []) :=
  engineInv_oneSession mcqDb 7 ⟨1, 1, 0, 0, []⟩ (inProgressAttempt 1) rfl rfl
    (by unfold freshIds; decide) (by unfold uniqueIds; decide)

/-- The state after user 7 answers question 1 with option 1 from
`mcqState 0 []`. -/
def c8After : BotState :=
  ⟨mcqDb,
   putSession (putSession (oneSession 7 ⟨1, 1, 0, 0, []⟩) 7 ⟨1, 1, 0, 0, [(1, .optionId 1)]⟩)
     7 ⟨1, 1, 1, 0, [(1, .optionId 1)]⟩⟩

/-- C8 witness: the monotonicity theorem applied to one concrete answer
step from `mcqState 0 []`. -/
theorem C8_status_monotonic_witness :
    EngineInv (mcqState 0 []) ∧
    (EngineInv c8After ∧
     ∀ a ∈ (mcqState 0 []).db.attempts, ∀ a1 ∈ c8After.db.attempts, a1.id = a.id →
       (a.status ≠ "in_progress" → a1 = a) ∧
       (a.status = "in_progress" → a1.status = "in_progress" ∨
         a1.status = "completed" ∨ a1.status = "expired" ∨ a1.status = "abandoned")) :=
  ⟨mcqState_engineInv,
   C8_status_monotonic (mcqState 0 []) c8After (.answerCallback 7 1 1 5)
     (.questionShown 1) mcqState_engineInv rfl⟩

/-- C1 witness: the amended max-score theorem applied to a concrete
finalization with one answered and one unanswered question. -/
theorem C1_max_score_witness :
    quizMaxScore mcqQuiz = 2 ∧
    (∃ st' a2, finish_quiz (mcqState 2 [(1, .optionId 1)]) 7 50
        = some (st', .completedResult a2) ∧
      a2.status = "completed" ∧
      a2.max_score = some (answeredQuestionsPoints st'.db 1)) :=
  ⟨by with_unfolding_all decide,
   C1_max_score (mcqState 2 [(1, .optionId 1)]) 7 50 ⟨1, 1, 2, 0, [(1, .optionId 1)]⟩
     (inProgressAttempt 1) mcqQuiz [⟨1, 1, .optionId 1, true, 1⟩] 1 1 mcqQuiz
     rfl rfl rfl (by with_unfolding_all decide) (by with_unfolding_all decide) rfl⟩

/-- C2 witness: the scoring theorem applied to the boundary scenario —
two one-point questions, passing score 50, question 1 correct and
question 2 wrong, giving percentage 50 and a pass. -/
theorem C2_completed_scoring_witness :
    pctOf 1 2 = 50 ∧ ((50 : ℚ) ≥ 50) ∧
    (∃ st' a2, finish_quiz (mcqState 2 [(1, .optionId 1), (2, .optionId 3)]) 7 30
        = some (st', .completedResult a2) ∧
      a2.score = some (sumPointsEarned st'.db 1) ∧
      a2.max_score = some 2 ∧
      a2.percentage = some (pctOf 1 2) ∧
      (0 < (2 : ℚ) → pctOf 1 2 = 1 / 2 * 100) ∧
      ((2 : ℚ) = 0 → pctOf 1 2 = 0) ∧
      (a2.is_passed = some true ↔ pctOf 1 2 ≥ mcqQuiz.passing_score)) :=
  ⟨by with_unfolding_all decide, by with_unfolding_all decide,
   C2_completed_scoring (mcqState 2 [(1, .optionId 1), (2, .optionId 3)]) 7 30
     ⟨1, 1, 2, 0, [(1, .optionId 1), (2, .optionId 3)]⟩
     (inProgressAttempt 1) mcqQuiz
     [⟨1, 1, .optionId 1, true, 1⟩, ⟨1, 2, .optionId 3, false, 0⟩] 2 1 mcqQuiz
     rfl rfl rfl (by with_unfolding_all decide) (by with_unfolding_all decide) rfl rfl⟩

/-- C3 witness: the amended expiry theorem applied to a non-final
advance at 61 s on the 60 s `timedQuiz`, with an arbitrary submitted
question id and option id. -/
theorem C3_expiry_on_advance_witness :
    timedQuiz.time_limit = some 60 ∧ ((60 : ℚ) < 61 - 0) ∧
    (∃ st', handle_quiz_answer timedState 7 12 99 61 = some (st', .expiredNotice) ∧
      get_quiz_attempt st'.db 1 =
        some { inProgressAttempt 2 with status := "expired", completed_at := some 61 } ∧
      st'.db.answers = timedState.db.answers ∧
      st'.sessions 7 = none) :=
  ⟨rfl, by with_unfolding_all decide,
   C3_expiry_on_advance timedState 7 12 99 61 ⟨1, 2, 0, 0, []⟩ timedQuiz
     (inProgressAttempt 2) 60 rfl rfl rfl rfl (by with_unfolding_all decide) (by decide)⟩

/-- C4 witness: the amended quota theorem applied to `maxedState`,
where the single permitted attempt is already used. -/
theorem C4_quota_check_witness :
    maxedQuiz.max_attempts ≤ (get_user_quiz_attempts maxedState.db 7 4 : Int) ∧
    show_quiz_info maxedState 7 4 = (maxedState, .attemptsExhausted) :=
  ⟨by decide,
   C4_quota_check maxedState 7 4 maxedQuiz rfl rfl (by decide)⟩

/-- C5 witness: the amended no-guard theorem applied to a mismatched
question id (2 instead of the current question's id 1). -/
theorem C5_no_stale_guard_witness :
    ((mcqQuiz.questions[0]?).map Question.id = some 1 ∧ (2 : Nat) ≠ 1) ∧
    handle_quiz_answer (mcqState 0 []) 7 2 5 3 =
      some (⟨mcqDb,
             putSession (mcqState 0 []).sessions 7
               { attempt_id := 1, quiz_id := 1, current_question := 1, start_time := 0
                 answers := setAnswer [] 2 (.optionId 5) }⟩,
            .questionShown 1) :=
  ⟨⟨rfl, by decide⟩,
   C5_no_stale_guard (mcqState 0 []) 7 2 5 3 ⟨1, 1, 0, 0, []⟩ mcqQuiz
     rfl rfl rfl (by decide)⟩

/-- C6 witness: the amended finalization theorem applied to a concrete
attempt, showing both the completed and the expired field updates. -/
theorem C6_finalize_fields_witness :
    ((mcqState 2 [(1, .optionId 1), (2, .optionId 3)]).sessions 7
      = some ⟨1, 1, 2, 0, [(1, .optionId 1), (2, .optionId 3)]⟩) ∧
    ((∃ st1 a2, finish_quiz (mcqState 2 [(1, .optionId 1), (2, .optionId 3)]) 7 30
        = some (st1, .completedResult a2) ∧
      a2.completed_at = some 30 ∧
      a2.time_taken = some (py_int (30 - 0)) ∧
      a2.status = "completed" ∧
      a2.score = some 1 ∧ a2.max_score = some 2 ∧
      a2.percentage = some (pctOf 1 2) ∧
      get_quiz_attempt st1.db 1 = some a2) ∧
    (∃ st2, timeout_quiz (mcqState 2 [(1, .optionId 1), (2, .optionId 3)]) 7 30
        = some (st2, .expiredNotice) ∧
      get_quiz_attempt st2.db 1 =
        some { inProgressAttempt 1 with status := "expired", completed_at := some 30 } ∧
      st2.db.answers = (mcqState 2 [(1, .optionId 1), (2, .optionId 3)]).db.answers ∧
      st2.sessions 7 = none)) :=
  ⟨rfl,
   C6_finalize_fields (mcqState 2 [(1, .optionId 1), (2, .optionId 3)]) 7 30
     ⟨1, 1, 2, 0, [(1, .optionId 1), (2, .optionId 3)]⟩
     (inProgressAttempt 1) mcqQuiz
     [⟨1, 1, .optionId 1, true, 1⟩, ⟨1, 2, .optionId 3, false, 0⟩] 2 1 mcqQuiz
     rfl rfl rfl (by with_unfolding_all decide) (by with_unfolding_all decide) rfl⟩

/-- C7 witness: the amended grading theorem applied to the
cross-question raw answer of `mixedState`. -/
theorem C7_grading_witness :
    gradeAnswer mixedDb 1 16 (.optionId 25) = some ⟨1, 16, .optionId 25, true, 5⟩ ∧
    (((⟨1, 16, .optionId 25, true, 5⟩ : Answer).is_correct
        = ((resolveOption mixedDb (.optionId 25)).map QuestionOption.is_correct).getD false) ∧
     (∀ s, (.optionId 25 : RawAnswer) = .text s →
        (⟨1, 16, .optionId 25, true, 5⟩ : Answer).is_correct = false) ∧
     ((⟨1, 16, .optionId 25, true, 5⟩ : Answer).is_correct = false →
        (⟨1, 16, .optionId 25, true, 5⟩ : Answer).points_earned = 0) ∧
     ((⟨1, 16, .optionId 25, true, 5⟩ : Answer).is_correct = true →
        ∃ q, get_question_by_id mixedDb 16 = some q ∧
          (⟨1, 16, .optionId 25, true, 5⟩ : Answer).points_earned = q.points)) :=
  ⟨by with_unfolding_all decide,
   C7_grading mixedDb 1 16 (.optionId 25) ⟨1, 16, .optionId 25, true, 5⟩
     (by with_unfolding_all decide)⟩

/-- C9 witness: the session-store theorem applied to user 7's live
session when a new start of quiz 1 comes in. -/
theorem C9_single_session_witness :
    (mcqState 0 []).sessions 7 = some ⟨1, 1, 0, 0, []⟩ ∧
    (∀ st' out, start_quiz (mcqState 0 []) 7 1 20 = some (st', out) →
      (∀ v, v ≠ 7 → st'.sessions v = (mcqState 0 []).sessions v) ∧
      st'.sessions 7 ≠ some ⟨1, 1, 0, 0, []⟩ ∧
      (st'.sessions 7 = none ∨ ∃ s2, st'.sessions 7 = some s2 ∧
        s2.quiz_id = 1 ∧ s2.attempt_id = 2)) :=
  ⟨rfl,
   (C9_single_session (mcqState 0 []) 7 1 20 ⟨1, 1, 0, 0, []⟩ mcqQuiz
     rfl rfl rfl (by decide)).1⟩

/-- C10 witness: the text-completion theorem applied to `textualState`,
whose last question is the text question 18. -/
theorem C10_text_finish_witness :
    textualState.sessions 7 = some ⟨1, 6, 1, 0, [(17, .optionId 27)]⟩ ∧
    handle_text_message textualState 7 "hello" 50 =
      some (⟨textualState.db,
             putSession textualState.sessions 7
               { attempt_id := 1, quiz_id := 6, current_question := 1, start_time := 0
                 answers := setAnswer [(17, .optionId 27)] 18 (.text "hello") }⟩,
            .textQuizFinished) :=
  ⟨rfl,
   C10_text_finish_no_finalize textualState 7 "hello" 50
     ⟨1, 6, 1, 0, [(17, .optionId 27)]⟩ textualQuiz
     { id := 18, quiz_id := 6, question_type := "text", order_index := 1
       points := 2, options := [] }
     rfl rfl rfl (Or.inl rfl) (by decide)⟩
